import Mathlib

/-!
Verification of the psychedelic animation engine (`animations.js`): a shallow
embedding of the `Animation` base class, its six variants (RotatingPolygons,
WaveInterference, ParticleSystem, PerlinNoise, Fractal, Spirograph), the
Perlin noise generator, the fractal escape-time evaluators, the HSV color
conversion, and the registry/factory, with proofs about the claims of the
specification.

JavaScript numbers are modelled as exact rationals (`ℚ`).  The `Math.log`
based smooth-iteration formula of the fractal evaluators is modelled over `ℝ`.
Canvas drawing calls are external capabilities and are not part of the
instance state; only state mutation is modelled.
-/

/-- JavaScript truncation toward zero (used by the `%` operator on numbers). -/
def jsTrunc (q : ℚ) : ℤ := if 0 ≤ q then ⌊q⌋ else -⌊-q⌋

/-- The JavaScript `%` remainder on numbers: `a % b = a - b * trunc (a / b)`
(the sign follows the dividend). -/
def jsRem (a b : ℚ) : ℚ := a - b * jsTrunc (a / b)

/-- JavaScript `Math.round`: round half toward positive infinity. -/
def jsRound (q : ℚ) : ℤ := ⌊q + 1/2⌋

namespace Animation

/-- `Animation.hsvToRgb(h, s, v)`: six-sector HSV to RGB conversion, each
channel rounded independently (`Math.round((channel + m) * 255)`). -/
def hsvToRgb (h s v : ℚ) : ℤ × ℤ × ℤ :=
  let c := v * s
  let x := c * (1 - |jsRem (h * 6) 2 - 1|)
  let m := v - c
  let rgb : ℚ × ℚ × ℚ :=
    if h < 1/6 then (c, x, 0)
    else if h < 2/6 then (x, c, 0)
    else if h < 3/6 then (0, c, x)
    else if h < 4/6 then (0, x, c)
    else if h < 5/6 then (x, 0, c)
    else (c, 0, x)
  (jsRound ((rgb.1 + m) * 255), jsRound ((rgb.2.1 + m) * 255),
    jsRound ((rgb.2.2 + m) * 255))

end Animation

/-! ## Parameter records

One record per variant, mirroring the `getDefaultParams` call-through chains:
every record repeats the base keys `{speed, trails, trailFade}` and adds the
variant's own keys with the variant's default values. -/

structure RPParams where
  speed : ℚ := 1
  trails : Bool := false
  trailFade : ℚ := 95/100
  numPolygons : ℚ := 5
  sides : ℚ := 6
  maxRadius : ℚ := 200
  minRadius : ℚ := 50
  rotationSpeed : ℚ := 1
  colorShift : ℚ := 0
  lineWidth : ℚ := 2

structure WIParams where
  speed : ℚ := 1
  trails : Bool := false
  trailFade : ℚ := 95/100
  frequency1 : ℚ := 5/100
  frequency2 : ℚ := 3/100
  amplitude : ℚ := 50
  waveSpeed : ℚ := 1
  colorMode : String := "rainbow"

structure PSParams where
  speed : ℚ := 1
  trails : Bool := false
  trailFade : ℚ := 95/100
  particleCount : ℕ := 100
  gravity : ℚ := 1/10
  bounceDamping : ℚ := 8/10
  airDamping : ℚ := 999/1000
  trailLength : ℚ := 20
  colorMode : String := "velocity"

structure PNParams where
  speed : ℚ := 1
  trails : Bool := false
  trailFade : ℚ := 95/100
  scale : ℚ := 1/100
  octaves : ℕ := 4
  persistence : ℚ := 1/2
  lacunarity : ℚ := 2
  timeSpeed : ℚ := 1
  colorMode : String := "rainbow"
  brightness : ℚ := 1

structure FracParams where
  speed : ℚ := 1
  trails : Bool := false
  trailFade : ℚ := 95/100
  maxIterations : ℕ := 100
  zoomSpeed : ℚ := 1
  colorSpeed : ℚ := 1
  fractalType : String := "mandelbrot"
  colorMode : String := "rainbow"
  brightness : ℚ := 1
  contrast : ℚ := 1
  centerX : ℚ := -1/2
  centerY : ℚ := 0

structure SpiroParams where
  speed : ℚ := 1
  trails : Bool := false
  trailFade : ℚ := 99/100
  R : ℚ := 100
  r : ℚ := 30
  d : ℚ := 50
  spiralSpeed : ℚ := 1
  colorShift : ℚ := 0

/-! ## Instance state

One record per variant: the base `Animation` fields (surface size, center,
frame counter, elapsed time, parameter set, play flag) plus the fields the
variant's constructor declares. -/

/-- A `ParticleSystem` particle: position, velocity and a bounded trail of
recent positions, oldest first. -/
structure Particle where
  x : ℚ
  y : ℚ
  vx : ℚ
  vy : ℚ
  trail : List (ℚ × ℚ)

/-- A `Spirograph` trail point: position plus sampled curve time. -/
structure TrailPoint where
  x : ℚ
  y : ℚ
  time : ℚ

structure RPState where
  width : ℚ
  height : ℚ
  centerX : ℚ
  centerY : ℚ
  frame : ℕ
  time : ℚ
  params : RPParams
  isPlaying : Bool
  rotationPhase : ℚ
  lastTime : ℚ
  lastRotationSpeed : ℚ

structure WIState where
  width : ℚ
  height : ℚ
  centerX : ℚ
  centerY : ℚ
  frame : ℕ
  time : ℚ
  params : WIParams
  isPlaying : Bool

structure PSState where
  width : ℚ
  height : ℚ
  centerX : ℚ
  centerY : ℚ
  frame : ℕ
  time : ℚ
  params : PSParams
  isPlaying : Bool
  particles : List Particle

structure PNState where
  width : ℚ
  height : ℚ
  centerX : ℚ
  centerY : ℚ
  frame : ℕ
  time : ℚ
  params : PNParams
  isPlaying : Bool
  noiseOffset : ℚ
  permutation : List ℕ

structure FractalState where
  width : ℚ
  height : ℚ
  centerX : ℚ
  centerY : ℚ
  frame : ℕ
  time : ℚ
  params : FracParams
  isPlaying : Bool
  zoom : ℚ
  colorOffset : ℚ

structure SpiroState where
  width : ℚ
  height : ℚ
  centerX : ℚ
  centerY : ℚ
  frame : ℕ
  time : ℚ
  params : SpiroParams
  isPlaying : Bool
  trailPoints : List TrailPoint

/-! ## update / reset / render state transitions -/

namespace RotatingPolygons

/-- `RotatingPolygons.update`: `super.update` (advance time/frame while
playing), then integrate the rotation phase from the elapsed-time delta. -/
def update (deltaTime : ℚ) (s : RPState) : RPState :=
  let s1 := if s.isPlaying then
    { s with time := s.time + deltaTime * s.params.speed, frame := s.frame + 1 }
  else s
  if s1.isPlaying then
    let timeDelta := s1.time - s1.lastTime
    { s1 with
      rotationPhase := s1.rotationPhase + timeDelta * s1.params.rotationSpeed * (1/100),
      lastTime := s1.time,
      lastRotationSpeed := s1.params.rotationSpeed }
  else s1

/-- `RotatingPolygons.reset`: `super.reset` plus zeroing the rotation phase
and the last-sampled-time cursor. -/
def reset (s : RPState) : RPState :=
  { s with frame := 0, time := 0, rotationPhase := 0, lastTime := 0 }

end RotatingPolygons

namespace WaveInterference

/-- `WaveInterference` inherits `Animation.update` unchanged. -/
def update (deltaTime : ℚ) (s : WIState) : WIState :=
  if s.isPlaying then
    { s with time := s.time + deltaTime * s.params.speed, frame := s.frame + 1 }
  else s

/-- `WaveInterference` inherits `Animation.reset` unchanged. -/
def reset (s : WIState) : WIState := { s with frame := 0, time := 0 }

end WaveInterference

namespace ParticleSystem

/-- One particle step of `ParticleSystem.update`: gravity, air damping,
semi-implicit Euler position update, wall bounce with clamping, and the
FIFO trail push (`dt` is the pre-scaled `deltaTime * 0.01`). -/
def psStepParticle (w h g bd ad tl dt : ℚ) (pt : Particle) : Particle :=
  let vy0 := pt.vy + g
  let vx1 := pt.vx * ad
  let vy1 := vy0 * ad
  let x1 := pt.x + vx1 * dt
  let y1 := pt.y + vy1 * dt
  let vx2 := if x1 ≤ 0 ∨ x1 ≥ w then vx1 * (-bd) else vx1
  let x2 := if x1 ≤ 0 ∨ x1 ≥ w then max 0 (min w x1) else x1
  let vy2 := if y1 ≤ 0 ∨ y1 ≥ h then vy1 * (-bd) else vy1
  let y2 := if y1 ≤ 0 ∨ y1 ≥ h then max 0 (min h y1) else y1
  let trail1 := pt.trail ++ [(x2, y2)]
  let trail2 := if (trail1.length : ℚ) > tl then trail1.tail else trail1
  { x := x2, y := y2, vx := vx2, vy := vy2, trail := trail2 }

/-- `ParticleSystem.update`: `super.update`, early return unless playing,
then the physics step over every particle. -/
def update (deltaTime : ℚ) (s : PSState) : PSState :=
  let s1 := if s.isPlaying then
    { s with time := s.time + deltaTime * s.params.speed, frame := s.frame + 1 }
  else s
  if s1.isPlaying = false then s1
  else
    let stepped := s1.particles.map
      (psStepParticle s1.width s1.height s1.params.gravity s1.params.bounceDamping
        s1.params.airDamping s1.params.trailLength (deltaTime * (1/100)))
    { s1 with particles := stepped }

/-- `ParticleSystem` inherits `Animation.reset` unchanged (it does NOT
override it; particles and their trails are untouched). -/
def reset (s : PSState) : PSState := { s with frame := 0, time := 0 }

end ParticleSystem

namespace PerlinNoise

/-- `PerlinNoise` inherits `Animation.update` unchanged. -/
def update (deltaTime : ℚ) (s : PNState) : PNState :=
  if s.isPlaying then
    { s with time := s.time + deltaTime * s.params.speed, frame := s.frame + 1 }
  else s

/-- `PerlinNoise` inherits `Animation.reset` unchanged. -/
def reset (s : PNState) : PNState := { s with frame := 0, time := 0 }

/-- The state effect of `PerlinNoise.render`: `noiseOffset += timeSpeed * 0.01`,
executed unconditionally (render does not test `isPlaying`).  Pixel output
goes to the external canvas and is not part of the instance state. -/
def renderState (s : PNState) : PNState :=
  { s with noiseOffset := s.noiseOffset + s.params.timeSpeed * (1/100) }

end PerlinNoise

namespace Fractal

/-- `Fractal.update`: `super.update`, then multiplicative zoom, additive
color-offset cycling, and copying the configured center parameters. -/
def update (deltaTime : ℚ) (s : FractalState) : FractalState :=
  let s1 := if s.isPlaying then
    { s with time := s.time + deltaTime * s.params.speed, frame := s.frame + 1 }
  else s
  if s1.isPlaying then
    { s1 with
      zoom := s1.zoom * (1 + s1.params.zoomSpeed * (1/100) * deltaTime * (1/1000)),
      colorOffset := s1.colorOffset + s1.params.colorSpeed * deltaTime * (1/10000),
      centerX := s1.params.centerX,
      centerY := s1.params.centerY }
  else s1

/-- `Fractal.reset`: `super.reset` plus `zoom = 1`, center restored from the
parameters, and `colorOffset = 0`. -/
def reset (s : FractalState) : FractalState :=
  { s with
    frame := 0
    time := 0
    zoom := 1
    centerX := s.params.centerX
    centerY := s.params.centerY
    colorOffset := 0 }

end Fractal

namespace Spirograph

/-- `Spirograph` inherits `Animation.update` unchanged. -/
def update (deltaTime : ℚ) (s : SpiroState) : SpiroState :=
  if s.isPlaying then
    { s with time := s.time + deltaTime * s.params.speed, frame := s.frame + 1 }
  else s

/-- `Spirograph` inherits `Animation.reset` unchanged (it does NOT override
it; `trailPoints` is untouched). -/
def reset (s : SpiroState) : SpiroState := { s with frame := 0, time := 0 }

end Spirograph

/-- Sample states used to instantiate hypothetical theorems at concrete
inputs: a paused and a playing instance of each variant. -/
def rpPaused : RPState :=
  { width := 800, height := 600, centerX := 400, centerY := 300, frame := 3,
    time := 7, params := {}, isPlaying := false, rotationPhase := 2,
    lastTime := 5, lastRotationSpeed := 1 }

def rpPlaying : RPState := { rpPaused with isPlaying := true }

def wiPaused : WIState :=
  { width := 800, height := 600, centerX := 400, centerY := 300, frame := 3,
    time := 7, params := {}, isPlaying := false }

def wiPlaying : WIState := { wiPaused with isPlaying := true }

def psPaused : PSState :=
  { width := 800, height := 600, centerX := 400, centerY := 300, frame := 3,
    time := 7, params := {}, isPlaying := false,
    particles := [{ x := 10, y := 20, vx := 1, vy := -1, trail := [(9, 21)] }] }

def psPlaying : PSState := { psPaused with isPlaying := true }

def pnPaused : PNState :=
  { width := 800, height := 600, centerX := 400, centerY := 300, frame := 3,
    time := 7, params := {}, isPlaying := false, noiseOffset := 4,
    permutation := [] }

def pnPlaying : PNState := { pnPaused with isPlaying := true }

def fracPaused : FractalState :=
  { width := 800, height := 600, centerX := -1/2, centerY := 0, frame := 3,
    time := 7, params := {}, isPlaying := false, zoom := 2, colorOffset := 1 }

def fracPlaying : FractalState := { fracPaused with isPlaying := true }

def spiroPaused : SpiroState :=
  { width := 800, height := 600, centerX := 400, centerY := 300, frame := 3,
    time := 7, params := {}, isPlaying := false,
    trailPoints := [{ x := 1, y := 2, time := 3 }] }

def spiroPlaying : SpiroState := { spiroPaused with isPlaying := true }

/-! ## Constructors and the registry/factory

Randomness (`Math.random()`) is modelled by a stream `rand : ℕ → ℚ`; the
`k`-th call of `Math.random()` returns `rand k`. -/

namespace ParticleSystem

/-- `ParticleSystem.initializeParticles`: a batch of `particleCount`
particles at uniform-random positions, velocities in `[-5,5]` per axis,
empty trails.  Each particle consumes four consecutive random values
(x, y, vx, vy). -/
def initializeParticles (w h : ℚ) (count : ℕ) (rand : ℕ → ℚ) : List Particle :=
  (List.range count).map fun i =>
    { x := rand (4*i) * w
      y := rand (4*i+1) * h
      vx := (rand (4*i+2) - 1/2) * 10
      vy := (rand (4*i+3) - 1/2) * 10
      trail := [] }

end ParticleSystem

namespace PerlinNoise

/-- The JavaScript destructuring swap `[p[i], p[j]] = [p[j], p[i]]`. -/
def listSwap (l : List ℕ) (i j : ℕ) : List ℕ :=
  let vi := l.getD i 0
  let vj := l.getD j 0
  (l.set i vj).set j vi

/-- `PerlinNoise.generatePermutation`: Fisher–Yates shuffle of `0..255`
(`i` from 255 down to 1, `j = floor(random() * (i+1))`), then duplicated to
length 512 for wraparound-free indexing. -/
def generatePermutation (rand : ℕ → ℚ) : List ℕ :=
  let p0 := List.range 256
  let p := (List.range 255).foldl (fun acc k =>
    let i : ℕ := 255 - k
    let j := (⌊rand k * ((i : ℚ) + 1)⌋).toNat
    listSwap acc i j) p0
  p ++ p

end PerlinNoise

/-- `new RotatingPolygons(canvas)` with default parameters. -/
def mkRotatingPolygons (w h : ℚ) : RPState :=
  { width := w, height := h, centerX := w/2, centerY := h/2, frame := 0,
    time := 0, params := {}, isPlaying := false, rotationPhase := 0,
    lastTime := 0, lastRotationSpeed := ({} : RPParams).rotationSpeed }

/-- `new WaveInterference(canvas)` with default parameters. -/
def mkWaveInterference (w h : ℚ) : WIState :=
  { width := w, height := h, centerX := w/2, centerY := h/2, frame := 0,
    time := 0, params := {}, isPlaying := false }

/-- `new ParticleSystem(canvas)` with default parameters: the constructor
immediately calls `initializeParticles`. -/
def mkParticleSystem (w h : ℚ) (rand : ℕ → ℚ) : PSState :=
  { width := w, height := h, centerX := w/2, centerY := h/2, frame := 0,
    time := 0, params := {}, isPlaying := false,
    particles := ParticleSystem.initializeParticles w h
      ({} : PSParams).particleCount rand }

/-- `new PerlinNoise(canvas)` with default parameters: the constructor
generates the permutation table once. -/
def mkPerlinNoise (w h : ℚ) (rand : ℕ → ℚ) : PNState :=
  { width := w, height := h, centerX := w/2, centerY := h/2, frame := 0,
    time := 0, params := {}, isPlaying := false, noiseOffset := 0,
    permutation := PerlinNoise.generatePermutation rand }

/-- `new Fractal(canvas)` with default parameters: the constructor overrides
the pixel center with the logical coordinate-space center `(-0.5, 0)`. -/
def mkFractal (w h : ℚ) : FractalState :=
  { width := w, height := h, centerX := -1/2, centerY := 0, frame := 0,
    time := 0, params := {}, isPlaying := false, zoom := 1, colorOffset := 0 }

/-- `new Spirograph(canvas)` with default parameters. -/
def mkSpirograph (w h : ℚ) : SpiroState :=
  { width := w, height := h, centerX := w/2, centerY := h/2, frame := 0,
    time := 0, params := {}, isPlaying := false, trailPoints := [] }

/-- The result of a successful `createAnimation` call: an instance of one of
the six variants. -/
inductive AnimationInstance where
  | rotatingPolygons : RPState → AnimationInstance
  | waveInterference : WIState → AnimationInstance
  | particleSystem : PSState → AnimationInstance
  | perlinNoise : PNState → AnimationInstance
  | fractal : FractalState → AnimationInstance
  | spirograph : SpiroState → AnimationInstance

/-- The keys of the `ANIMATIONS` registry object, in declaration order. -/
def animationKeys : List String :=
  ["rotating_polygons", "wave_interference", "particle_system",
   "perlin_noise", "fractal", "spirograph"]

/-- `createAnimation(type, canvas, params = {})`: looks `type` up in the
`ANIMATIONS` registry and throws `Unknown animation type: <type>` when the
lookup fails; otherwise constructs the registered variant.  Modelled with the
default empty parameter patch. -/
def createAnimation (type : String) (w h : ℚ) (rand : ℕ → ℚ) :
    Except String AnimationInstance :=
  if type = "rotating_polygons" then
    .ok (.rotatingPolygons (mkRotatingPolygons w h))
  else if type = "wave_interference" then
    .ok (.waveInterference (mkWaveInterference w h))
  else if type = "particle_system" then
    .ok (.particleSystem (mkParticleSystem w h rand))
  else if type = "perlin_noise" then
    .ok (.perlinNoise (mkPerlinNoise w h rand))
  else if type = "fractal" then
    .ok (.fractal (mkFractal w h))
  else if type = "spirograph" then
    .ok (.spirograph (mkSpirograph w h))
  else
    .error ("Unknown animation type: " ++ type)

/-! ## Driver runs over a ParticleSystem instance

The external driver and UI may interleave frame updates with play/pause
toggles and `updateParams` patches.  A shallow merge of a patch into the
current parameter record can produce any parameter record, so `setParams`
carries the resulting record. -/

inductive PSOp where
  | update (dt : ℚ)
  | setParams (p : PSParams)
  | play
  | pause

/-- Apply one driver operation to a `ParticleSystem` instance. -/
def PSOp.apply (s : PSState) : PSOp → PSState
  | .update dt => ParticleSystem.update dt s
  | .setParams p => { s with params := p }
  | .play => { s with isPlaying := true }
  | .pause => { s with isPlaying := false }

/-- Run a finite sequence of driver operations. -/
def PSRun (s : PSState) : List PSOp → PSState
  | [] => s
  | op :: rest => PSRun (PSOp.apply s op) rest

/-- `trailLength` is never lowered along a run: every `setParams` in the
list keeps `trailLength` at least the value it had before. -/
def PSRunTLMono : ℚ → List PSOp → Prop
  | _, [] => True
  | t, PSOp.update _ :: rest => PSRunTLMono t rest
  | t, PSOp.setParams p :: rest => t ≤ p.trailLength ∧ PSRunTLMono p.trailLength rest
  | t, PSOp.play :: rest => PSRunTLMono t rest
  | t, PSOp.pause :: rest => PSRunTLMono t rest

/-- A playing one-particle instance used to exercise the trail-length cap:
no gravity, no damping loss, zero velocity, `trailLength = 2`. -/
def psTrailSample : PSState :=
  { width := 100, height := 100, centerX := 50, centerY := 50, frame := 0,
    time := 0,
    params := { gravity := 0, bounceDamping := 0, airDamping := 1,
                trailLength := 2, particleCount := 1 },
    isPlaying := true,
    particles := [{ x := 50, y := 50, vx := 0, vy := 0, trail := [] }] }

/-- Three updates at `trailLength = 2`, then lower `trailLength` to 1 and
update once more. -/
def psTrailOps : List PSOp :=
  [.update 1, .update 1, .update 1,
   .setParams { gravity := 0, bounceDamping := 0, airDamping := 1,
                trailLength := 1, particleCount := 1 },
   .update 1]

/-! ## Perlin noise generator

`PerlinNoise.noise` is the classic improved-Perlin 3D gradient noise; the
permutation table is passed as a total lookup function `perm : ℕ → ℕ`
(JavaScript array indexing into the 512-entry table). -/

namespace PerlinNoise

/-- `PerlinNoise.fade`: the smootherstep curve `6t⁵ - 15t⁴ + 10t³`. -/
def fade (t : ℚ) : ℚ := t * t * t * (t * (t * 6 - 15) + 10)

/-- `PerlinNoise.lerp`. -/
def lerp (a b t : ℚ) : ℚ := a + t * (b - a)

/-- `PerlinNoise.grad`: 16-way hashed gradient selection on the low 4 bits
(`hash & 15`; `h & 1` and `h & 2` are the sign bits, written here as
`h % 2` and `h / 2 % 2`). -/
def grad (hash : ℕ) (x y z : ℚ) : ℚ :=
  let h := hash % 16
  let u := if h < 8 then x else y
  let v := if h < 4 then y else if h = 12 ∨ h = 14 then x else z
  (if h % 2 = 0 then u else -u) + (if h / 2 % 2 = 0 then v else -v)

/-- `PerlinNoise.noise`: trilinear fade-weighted interpolation of the eight
hashed corner gradients of the containing lattice cell.  `Math.floor(x) & 255`
is the Euclidean remainder of the floor. -/
def noise (perm : ℕ → ℕ) (x y z : ℚ) : ℚ :=
  let X := (⌊x⌋ % 256).toNat
  let Y := (⌊y⌋ % 256).toNat
  let Z := (⌊z⌋ % 256).toNat
  let xf := x - ⌊x⌋
  let yf := y - ⌊y⌋
  let zf := z - ⌊z⌋
  let u := fade xf
  let v := fade yf
  let w := fade zf
  let A := perm X + Y
  let AA := perm A + Z
  let AB := perm (A + 1) + Z
  let B := perm (X + 1) + Y
  let BA := perm B + Z
  let BB := perm (B + 1) + Z
  lerp
    (lerp (lerp (grad (perm AA) xf yf zf) (grad (perm BA) (xf - 1) yf zf) u)
          (lerp (grad (perm AB) xf (yf - 1) zf)
                (grad (perm BB) (xf - 1) (yf - 1) zf) u) v)
    (lerp (lerp (grad (perm (AA + 1)) xf yf (zf - 1))
                (grad (perm (BA + 1)) (xf - 1) yf (zf - 1)) u)
          (lerp (grad (perm (AB + 1)) xf (yf - 1) (zf - 1))
                (grad (perm (BB + 1)) (xf - 1) (yf - 1) (zf - 1)) u) v)
    w

/-- The loop state of `fractalNoise`:
`(value, amplitude, frequency, maxValue)`. -/
def fractalIter (perm : ℕ → ℕ) (x y z persistence lacunarity : ℚ) :
    ℕ → ℚ × ℚ × ℚ × ℚ → ℚ × ℚ × ℚ × ℚ
  | 0, acc => acc
  | n + 1, (value, amplitude, frequency, maxValue) =>
    fractalIter perm x y z persistence lacunarity n
      (value + noise perm (x * frequency) (y * frequency) (z * frequency) * amplitude,
       amplitude * persistence, frequency * lacunarity, maxValue + amplitude)

/-- `PerlinNoise.fractalNoise`: multi-octave summation normalized by the
total amplitude. -/
def fractalNoise (perm : ℕ → ℕ) (x y z : ℚ) (octaves : ℕ)
    (persistence lacunarity : ℚ) : ℚ :=
  let r := fractalIter perm x y z persistence lacunarity octaves (0, 1, 1, 0)
  r.1 / r.2.2.2

end PerlinNoise

/-- The data-model characterization of a permutation table as produced by
`generatePermutation` (a Fisher–Yates shuffle, which can realize every
permutation of `0..255`): the first 256 entries are a permutation of
`0..255` and the table is duplicated for wraparound-free indexing. -/
def IsPermTable (p : ℕ → ℕ) : Prop :=
  (∀ i < 256, p i < 256) ∧
  (∀ i < 256, ∀ j < 256, p i = p j → i = j) ∧
  (∀ i < 512, p i = p (i % 256))

/-- An explicit permutation of `0..255` (the identity outside four 3-cycles
and four transpositions) whose corner hashes at the lattice cell of
`(1/2, 1/2, 1/10)` all select gradients aligned with the sample point. -/
def permBase : ℕ → ℕ := fun n =>
  if n = 0 then 10 else if n = 10 then 100 else if n = 100 then 0
  else if n = 1 then 20 else if n = 20 then 120 else if n = 120 then 1
  else if n = 11 then 110 else if n = 110 then 2 else if n = 2 then 11
  else if n = 21 then 130 else if n = 130 then 3 else if n = 3 then 21
  else if n = 101 then 6 else if n = 6 then 101
  else if n = 111 then 22 else if n = 22 then 111
  else if n = 121 then 7 else if n = 7 then 121
  else if n = 131 then 23 else if n = 23 then 131
  else n

/-- `permBase` duplicated for wraparound-free indexing. -/
def permTable : ℕ → ℕ := fun n => permBase (n % 256)

/-! ## Fractal escape-time evaluators

The three fractal families share the loop
`while (x2 + y2 <= 4 && iter < maxIter)`; the loop state carries `x`, `y`,
their squares and the iteration counter, and the remaining fuel is
`maxIter - iter`.  The smooth-coloring return value uses `Math.log` and is
modelled over `ℝ`. -/

structure ZState where
  x : ℚ
  y : ℚ
  x2 : ℚ
  y2 : ℚ
  iter : ℕ

namespace Fractal

/-- The escape-time loop, parameterized by the per-family loop body. -/
def escapeLoop (step : ZState → ZState) : ℕ → ZState → ZState
  | 0, s => s
  | fuel + 1, s => if s.x2 + s.y2 ≤ 4 then escapeLoop step fuel (step s) else s

/-- One `mandelbrot` loop iteration: `y = 2xy + cy; x = x2 - y2 + cx`. -/
def mandelStep (cx cy : ℚ) (s : ZState) : ZState :=
  let y := 2 * s.x * s.y + cy
  let x := s.x2 - s.y2 + cx
  { x := x, y := y, x2 := x * x, y2 := y * y, iter := s.iter + 1 }

/-- One `julia` loop iteration: the constant is `juliaC`, not the pixel. -/
def juliaStep (jr ji : ℚ) (s : ZState) : ZState :=
  let y := 2 * s.x * s.y + ji
  let x := s.x2 - s.y2 + jr
  { x := x, y := y, x2 := x * x, y2 := y * y, iter := s.iter + 1 }

/-- One `burning_ship` loop iteration: `y = 2|xy| + cy; x = x2 - y2 + cx`. -/
def shipStep (cx cy : ℚ) (s : ZState) : ZState :=
  let y := 2 * |s.x * s.y| + cy
  let x := s.x2 - s.y2 + cx
  { x := x, y := y, x2 := x * x, y2 := y * y, iter := s.iter + 1 }

/-- The loop-exit state of `mandelbrot(cx, cy, maxIter)` (`z0 = 0`). -/
def mandelbrotExit (cx cy : ℚ) (maxIter : ℕ) : ZState :=
  escapeLoop (mandelStep cx cy) maxIter
    { x := 0, y := 0, x2 := 0, y2 := 0, iter := 0 }

/-- The loop-exit state of `julia(cx, cy, maxIter, juliaC)`
(`z0` is the pixel coordinate). -/
def juliaExit (cx cy : ℚ) (maxIter : ℕ) (jr ji : ℚ) : ZState :=
  escapeLoop (juliaStep jr ji) maxIter
    { x := cx, y := cy, x2 := cx * cx, y2 := cy * cy, iter := 0 }

/-- The loop-exit state of `burning_ship(cx, cy, maxIter)` (`z0 = 0`). -/
def shipExit (cx cy : ℚ) (maxIter : ℕ) : ZState :=
  escapeLoop (shipStep cx cy) maxIter
    { x := 0, y := 0, x2 := 0, y2 := 0, iter := 0 }

/-- The smooth-coloring value returned for an escaping orbit:
`iter + 1 - log(log(x2+y2)/2 / log 2) / log 2`. -/
noncomputable def smoothCount (iter : ℕ) (r : ℚ) : ℝ :=
  (iter : ℝ) + 1 - Real.log ((Real.log (r : ℝ) / 2) / Real.log 2) / Real.log 2

/-- `Fractal.mandelbrot(cx, cy, maxIter)`: 0 marks "inside the set". -/
noncomputable def mandelbrot (cx cy : ℚ) (maxIter : ℕ) : ℝ :=
  let s := mandelbrotExit cx cy maxIter
  if s.iter = maxIter then 0 else smoothCount s.iter (s.x2 + s.y2)

/-- `Fractal.julia(cx, cy, maxIter, juliaC = {r: -0.7, i: 0.27015})`. -/
noncomputable def julia (cx cy : ℚ) (maxIter : ℕ)
    (jr : ℚ := -7/10) (ji : ℚ := 27015/100000) : ℝ :=
  let s := juliaExit cx cy maxIter jr ji
  if s.iter = maxIter then 0 else smoothCount s.iter (s.x2 + s.y2)

/-- `Fractal.burning_ship(cx, cy, maxIter)`. -/
noncomputable def burning_ship (cx cy : ℚ) (maxIter : ℕ) : ℝ :=
  let s := shipExit cx cy maxIter
  if s.iter = maxIter then 0 else smoothCount s.iter (s.x2 + s.y2)

/-- The orbit of `(cx, cy)` leaves the radius-2 disc strictly within the
iteration budget (the loop exits with fuel to spare). -/
def mandelEscapesWithin (cx cy : ℚ) (maxIter : ℕ) : Prop :=
  (mandelbrotExit cx cy maxIter).iter < maxIter

def juliaEscapesWithin (cx cy : ℚ) (maxIter : ℕ) (jr ji : ℚ) : Prop :=
  (juliaExit cx cy maxIter jr ji).iter < maxIter

def shipEscapesWithin (cx cy : ℚ) (maxIter : ℕ) : Prop :=
  (shipExit cx cy maxIter).iter < maxIter

end Fractal

/-! ## Theorems -/

/-- Once the loop state is already escaped, `escapeLoop` returns it
unchanged for any fuel. -/
theorem Fractal.escapeLoop_of_escaped (step : ZState → ZState) (n : ℕ)
    (s : ZState) (h : ¬ (s.x2 + s.y2 ≤ 4)) :
    Fractal.escapeLoop step n s = s := by
  cases n with
  | zero => rfl
  | succ n => simp [Fractal.escapeLoop, h]

/-- Extra fuel does not change the exit state of an orbit that has already
escaped within the original fuel. -/
theorem Fractal.escapeLoop_add_of_escaped (step : ZState → ZState)
    (n k : ℕ) (s : ZState)
    (h : ¬ ((Fractal.escapeLoop step n s).x2
      + (Fractal.escapeLoop step n s).y2 ≤ 4)) :
    Fractal.escapeLoop step (n + k) s = Fractal.escapeLoop step n s := by
  induction n generalizing s with
  | zero =>
    rw [Nat.zero_add]
    exact Fractal.escapeLoop_of_escaped step k s h
  | succ n ih =>
    by_cases hc : s.x2 + s.y2 ≤ 4
    · have h1 : Fractal.escapeLoop step (n + 1) s
          = Fractal.escapeLoop step n (step s) := by
        simp [Fractal.escapeLoop, hc]
      have h2 : Fractal.escapeLoop step (n + 1 + k) s
          = Fractal.escapeLoop step (n + k) (step s) := by
        have hnk : n + 1 + k = (n + k) + 1 := by omega
        rw [hnk]
        simp [Fractal.escapeLoop, hc]
      rw [h1] at h
      rw [h2, h1]
      exact ih (step s) h
    · rw [Fractal.escapeLoop_of_escaped step (n + 1) s hc] at h
      rw [Fractal.escapeLoop_of_escaped step (n + 1) s hc]
      exact Fractal.escapeLoop_of_escaped step (n + 1 + k) s h

/-- If the loop exits with iterations to spare, it exited because the orbit
escaped (`x2 + y2 > 4` at the exit state). -/
theorem Fractal.escapeLoop_iter_lt (step : ZState → ZState)
    (hstep : ∀ s, (step s).iter = s.iter + 1) (n : ℕ) (s : ZState)
    (h : (Fractal.escapeLoop step n s).iter < s.iter + n) :
    ¬ ((Fractal.escapeLoop step n s).x2
      + (Fractal.escapeLoop step n s).y2 ≤ 4) := by
  induction n generalizing s with
  | zero => simp [Fractal.escapeLoop] at h
  | succ n ih =>
    by_cases hc : s.x2 + s.y2 ≤ 4
    · have heq : Fractal.escapeLoop step (n + 1) s
          = Fractal.escapeLoop step n (step s) := by
        simp [Fractal.escapeLoop, hc]
      rw [heq] at h ⊢
      apply ih (step s)
      rw [hstep s]
      omega
    · rw [Fractal.escapeLoop_of_escaped step (n + 1) s hc]
      exact hc

/-- An orbit that escapes strictly within `m1` iterations has the same exit
state under any larger budget `m2`. -/
theorem Fractal.exit_stable (step : ZState → ZState)
    (hstep : ∀ s, (step s).iter = s.iter + 1) (init : ZState)
    (hiter0 : init.iter = 0) (m1 m2 : ℕ) (h12 : m1 ≤ m2)
    (hesc : (Fractal.escapeLoop step m1 init).iter < m1) :
    Fractal.escapeLoop step m2 init = Fractal.escapeLoop step m1 init := by
  have hne := Fractal.escapeLoop_iter_lt step hstep m1 init
    (by rw [hiter0]; omega)
  obtain ⟨k, rfl⟩ := Nat.exists_eq_add_of_le h12
  exact Fractal.escapeLoop_add_of_escaped step m1 k init hne

/-- A particle produced by the physics step has its position clamped into
`[0, w] × [0, h]`, whatever the incoming particle was. -/
theorem psStepParticle_pos_mem (w h g bd ad tl dt : ℚ) (hw : 0 ≤ w)
    (hh : 0 ≤ h) (pt : Particle) :
    0 ≤ (ParticleSystem.psStepParticle w h g bd ad tl dt pt).x ∧
    (ParticleSystem.psStepParticle w h g bd ad tl dt pt).x ≤ w ∧
    0 ≤ (ParticleSystem.psStepParticle w h g bd ad tl dt pt).y ∧
    (ParticleSystem.psStepParticle w h g bd ad tl dt pt).y ≤ h := by
  unfold ParticleSystem.psStepParticle
  dsimp only
  constructor
  · split
    · exact le_max_left 0 _
    · next hcond => push_neg at hcond; exact le_of_lt hcond.1
  constructor
  · split
    · exact max_le hw (min_le_left _ _)
    · next hcond => push_neg at hcond; exact le_of_lt hcond.2
  constructor
  · split
    · exact le_max_left 0 _
    · next hcond => push_neg at hcond; exact le_of_lt hcond.1
  · split
    · exact max_le hh (min_le_left _ _)
    · next hcond => push_neg at hcond; exact le_of_lt hcond.2

/-- `ParticleSystem.update` does not change the surface dimensions, the
parameter record or the play flag. -/
theorem ParticleSystem.update_frame_fields (dt : ℚ) (s : PSState) :
    (ParticleSystem.update dt s).width = s.width ∧
    (ParticleSystem.update dt s).height = s.height ∧
    (ParticleSystem.update dt s).params = s.params ∧
    (ParticleSystem.update dt s).isPlaying = s.isPlaying := by
  cases hpl : s.isPlaying <;>
    simp [ParticleSystem.update, hpl]

/-- A driver operation never changes the surface dimensions. -/
theorem PSOp.apply_dims (s : PSState) (op : PSOp) :
    (PSOp.apply s op).width = s.width ∧ (PSOp.apply s op).height = s.height := by
  cases op with
  | update dt => exact ⟨(ParticleSystem.update_frame_fields dt s).1,
      (ParticleSystem.update_frame_fields dt s).2.1⟩
  | setParams p => exact ⟨rfl, rfl⟩
  | play => exact ⟨rfl, rfl⟩
  | pause => exact ⟨rfl, rfl⟩

/-- A run of driver operations never changes the surface dimensions. -/
theorem PSRun_dims (s : PSState) (ops : List PSOp) :
    (PSRun s ops).width = s.width ∧ (PSRun s ops).height = s.height := by
  induction ops generalizing s with
  | nil => exact ⟨rfl, rfl⟩
  | cons op rest ih =>
    exact ⟨((ih (PSOp.apply s op)).1).trans (PSOp.apply_dims s op).1,
      ((ih (PSOp.apply s op)).2).trans (PSOp.apply_dims s op).2⟩

/-- `ParticleSystem.update` keeps every particle position inside
`[0, width] × [0, height]` when it already was (paused case) or
unconditionally via the clamp (playing case). -/
theorem ParticleSystem.update_particles_bounded (dt : ℚ) (s : PSState)
    (hw : 0 ≤ s.width) (hh : 0 ≤ s.height)
    (hinv : ∀ pt ∈ s.particles,
      0 ≤ pt.x ∧ pt.x ≤ s.width ∧ 0 ≤ pt.y ∧ pt.y ≤ s.height) :
    ∀ pt ∈ (ParticleSystem.update dt s).particles,
      0 ≤ pt.x ∧ pt.x ≤ s.width ∧ 0 ≤ pt.y ∧ pt.y ≤ s.height := by
  cases hpl : s.isPlaying with
  | false => simpa [ParticleSystem.update, hpl] using hinv
  | true =>
    intro pt hpt
    simp only [ParticleSystem.update, hpl, if_true, if_false, Bool.true_eq_false,
      List.mem_map] at hpt
    obtain ⟨pt0, _, rfl⟩ := hpt
    exact psStepParticle_pos_mem _ _ _ _ _ _ _ hw hh pt0

/-- Position-bound invariant for arbitrary driver runs: if all particles
start inside `[0, w] × [0, h]`, they stay inside after any interleaving of
updates, parameter patches and play/pause toggles. -/
theorem PSRun_pos_invariant (w h : ℚ) (s : PSState) (ops : List PSOp)
    (hws : s.width = w) (hhs : s.height = h) (hw : 0 ≤ w) (hh : 0 ≤ h)
    (hinv : ∀ pt ∈ s.particles, 0 ≤ pt.x ∧ pt.x ≤ w ∧ 0 ≤ pt.y ∧ pt.y ≤ h) :
    ∀ pt ∈ (PSRun s ops).particles,
      0 ≤ pt.x ∧ pt.x ≤ w ∧ 0 ≤ pt.y ∧ pt.y ≤ h := by
  induction ops generalizing s with
  | nil => exact hinv
  | cons op rest ih =>
    refine ih (PSOp.apply s op) ((PSOp.apply_dims s op).1.trans hws)
      ((PSOp.apply_dims s op).2.trans hhs) ?_
    cases op with
    | update dt =>
      subst hws hhs
      exact ParticleSystem.update_particles_bounded dt s hw hh hinv
    | setParams p => exact hinv
    | play => exact hinv
    | pause => exact hinv

/-- Claim C4: immediately after `initializeParticles`, every particle lies in
`[0, width) × [0, height)`; and after any finite run of `update` calls with
interleaved `updateParams` (and play/pause) operations, no particle position
lies outside `[0, width] × [0, height]`. -/
theorem particle_positions_bounded (w h : ℚ) (rand : ℕ → ℚ)
    (hrand : ∀ n, 0 ≤ rand n ∧ rand n < 1) (hw : 0 < w) (hh : 0 < h)
    (ops : List PSOp) :
    (∀ pt ∈ (mkParticleSystem w h rand).particles,
      0 ≤ pt.x ∧ pt.x < w ∧ 0 ≤ pt.y ∧ pt.y < h) ∧
    (∀ pt ∈ (PSRun (mkParticleSystem w h rand) ops).particles,
      0 ≤ pt.x ∧ pt.x ≤ w ∧ 0 ≤ pt.y ∧ pt.y ≤ h) := by
  have hinit : ∀ pt ∈ (mkParticleSystem w h rand).particles,
      0 ≤ pt.x ∧ pt.x < w ∧ 0 ≤ pt.y ∧ pt.y < h := by
    intro pt hpt
    simp only [mkParticleSystem, ParticleSystem.initializeParticles,
      List.mem_map, List.mem_range] at hpt
    obtain ⟨i, _, rfl⟩ := hpt
    refine ⟨mul_nonneg (hrand _).1 hw.le, ?_,
      mul_nonneg (hrand _).1 hh.le, ?_⟩
    · calc rand (4*i) * w < 1 * w := by
            exact mul_lt_mul_of_pos_right (hrand _).2 hw
        _ = w := one_mul w
    · calc rand (4*i+1) * h < 1 * h := by
            exact mul_lt_mul_of_pos_right (hrand _).2 hh
        _ = h := one_mul h
  refine ⟨hinit, PSRun_pos_invariant w h _ ops rfl rfl hw.le hh.le ?_⟩
  intro pt hpt
  obtain ⟨h1, h2, h3, h4⟩ := hinit pt hpt
  exact ⟨h1, h2.le, h3, h4.le⟩

/-- Witness for C4: a concrete 10×10 instance with a constant random stream,
run through a play followed by one update, keeps all particles in bounds. -/
theorem particle_positions_bounded_witness :
    (∀ pt ∈ (mkParticleSystem 10 10 (fun _ => 1/2)).particles,
      0 ≤ pt.x ∧ pt.x < 10 ∧ 0 ≤ pt.y ∧ pt.y < 10) ∧
    (∀ pt ∈ (PSRun (mkParticleSystem 10 10 (fun _ => 1/2))
        [PSOp.play, PSOp.update 16]).particles,
      0 ≤ pt.x ∧ pt.x ≤ 10 ∧ 0 ≤ pt.y ∧ pt.y ≤ 10) :=
  particle_positions_bounded 10 10 (fun _ => 1/2)
    (fun _ => ⟨by norm_num, by norm_num⟩) (by norm_num) (by norm_num)
    [PSOp.play, PSOp.update 16]

/-- The physics step keeps a particle's trail length at or below `tl`
whenever it already was. -/
theorem psStepParticle_trail_le (w h g bd ad tl dt : ℚ) (pt : Particle)
    (htl : (pt.trail.length : ℚ) ≤ tl) :
    (((ParticleSystem.psStepParticle w h g bd ad tl dt pt).trail.length : ℚ))
      ≤ tl := by
  unfold ParticleSystem.psStepParticle
  dsimp only
  simp only [List.length_append, List.length_singleton, Nat.cast_add,
    Nat.cast_one, gt_iff_lt]
  by_cases hc : tl < (pt.trail.length : ℚ) + 1
  · rw [if_pos hc]
    simpa using htl
  · rw [if_neg hc]
    push_neg at hc
    simpa using hc

/-- `ParticleSystem.update` preserves the per-particle trail-length bound
(with respect to the unchanged parameter record). -/
theorem ParticleSystem.update_trail_bounded (dt : ℚ) (s : PSState)
    (hinv : ∀ pt ∈ s.particles,
      (pt.trail.length : ℚ) ≤ s.params.trailLength) :
    ∀ pt ∈ (ParticleSystem.update dt s).particles,
      (pt.trail.length : ℚ) ≤ s.params.trailLength := by
  cases hpl : s.isPlaying with
  | false => simpa [ParticleSystem.update, hpl] using hinv
  | true =>
    intro pt hpt
    simp only [ParticleSystem.update, hpl, if_true, if_false, Bool.true_eq_false,
      List.mem_map] at hpt
    obtain ⟨pt0, hpt0, rfl⟩ := hpt
    exact psStepParticle_trail_le _ _ _ _ _ _ _ pt0 (hinv pt0 hpt0)

/-- Trail-length run invariant: if `trailLength` is never lowered along the
run and every trail initially respects the cap, every trail respects the
final cap after the run. -/
theorem PSRun_trail_invariant (s : PSState) (ops : List PSOp)
    (hmono : PSRunTLMono s.params.trailLength ops)
    (hinv : ∀ pt ∈ s.particles, (pt.trail.length : ℚ) ≤ s.params.trailLength) :
    ∀ pt ∈ (PSRun s ops).particles,
      (pt.trail.length : ℚ) ≤ (PSRun s ops).params.trailLength := by
  induction ops generalizing s with
  | nil => exact hinv
  | cons op rest ih =>
    cases op with
    | update dt =>
      have hparams := (ParticleSystem.update_frame_fields dt s).2.2.1
      refine ih (ParticleSystem.update dt s) ?_ ?_
      · rw [hparams]; exact hmono
      · rw [hparams]
        exact ParticleSystem.update_trail_bounded dt s hinv
    | setParams p =>
      obtain ⟨hle, hmono'⟩ := hmono
      refine ih _ hmono' ?_
      intro pt hpt
      exact (hinv pt hpt).trans hle
    | play => exact ih _ hmono hinv
    | pause => exact ih _ hmono hinv

/-- Claim C5 (amended): under any driver run whose `updateParams` calls never
lower `trailLength`, every particle's trail length stays at or below the
current `parameters.trailLength`; and on overflow the oldest entry (the list
head) is the one evicted, the new position being appended at the end (FIFO). -/
theorem trail_length_bounded (s : PSState) (ops : List PSOp)
    (hmono : PSRunTLMono s.params.trailLength ops)
    (hinv : ∀ pt ∈ s.particles, (pt.trail.length : ℚ) ≤ s.params.trailLength) :
    (∀ pt ∈ (PSRun s ops).particles,
      (pt.trail.length : ℚ) ≤ (PSRun s ops).params.trailLength) ∧
    (∀ (w h g bd ad tl dt : ℚ) (pt : Particle),
      (tl < (pt.trail.length : ℚ) + 1 →
        (ParticleSystem.psStepParticle w h g bd ad tl dt pt).trail
          = (pt.trail ++ [((ParticleSystem.psStepParticle w h g bd ad tl dt pt).x,
              (ParticleSystem.psStepParticle w h g bd ad tl dt pt).y)]).tail) ∧
      ((pt.trail.length : ℚ) + 1 ≤ tl →
        (ParticleSystem.psStepParticle w h g bd ad tl dt pt).trail
          = pt.trail ++ [((ParticleSystem.psStepParticle w h g bd ad tl dt pt).x,
              (ParticleSystem.psStepParticle w h g bd ad tl dt pt).y)])) := by
  refine ⟨PSRun_trail_invariant s ops hmono hinv, ?_⟩
  intro w h g bd ad tl dt pt
  constructor
  · intro hof
    unfold ParticleSystem.psStepParticle
    dsimp only
    simp only [List.length_append, List.length_singleton, Nat.cast_add,
      Nat.cast_one, gt_iff_lt]
    rw [if_pos hof]
  · intro hle
    unfold ParticleSystem.psStepParticle
    dsimp only
    simp only [List.length_append, List.length_singleton, Nat.cast_add,
      Nat.cast_one, gt_iff_lt]
    rw [if_neg (not_lt.mpr hle)]

/-- Witness for C5 (amended): three updates of the concrete playing instance
with constant `trailLength = 2` keep every trail length at or below 2. -/
theorem trail_length_bounded_witness :
    ((PSRun psTrailSample
        [PSOp.update 1, PSOp.update 1, PSOp.update 1]).particles.all
      (fun pt => decide ((pt.trail.length : ℚ) ≤ (PSRun psTrailSample
        [PSOp.update 1, PSOp.update 1, PSOp.update 1]).params.trailLength)))
      = true := by
  rw [List.all_eq_true]
  intro pt hpt
  exact decide_eq_true ((trail_length_bounded psTrailSample
    [PSOp.update 1, PSOp.update 1, PSOp.update 1]
    (by simp [PSRunTLMono])
    (by intro pt hpt; simp [psTrailSample] at hpt;
        simp [hpt, psTrailSample])).1 pt hpt)

/-- Counterexample for C5 as stated: on the concrete run `psTrailOps`, which
lowers `trailLength` from 2 to 1 mid-run, the particle's trail still has
length 2 after the next update — the trail length exceeds the current
`parameters.trailLength`. -/
theorem trail_length_exceeds_after_lowering :
    ¬ (∀ pt ∈ (PSRun psTrailSample psTrailOps).particles,
        (pt.trail.length : ℚ) ≤ (PSRun psTrailSample psTrailOps).params.trailLength) := by
  intro hcontra
  norm_num [psTrailOps, PSRun, PSOp.apply, ParticleSystem.update, psTrailSample,
    ParticleSystem.psStepParticle] at hcontra

/-- The fade curve maps `[0, 1]` into `[0, 1]`. -/
theorem fade_mem {t : ℚ} (h0 : 0 ≤ t) (h1 : t ≤ 1) :
    0 ≤ PerlinNoise.fade t ∧ PerlinNoise.fade t ≤ 1 := by
  constructor
  · have key : PerlinNoise.fade t = t^3 * (6*t^2 - 15*t + 10) := by
      unfold PerlinNoise.fade; ring
    rw [key]
    apply mul_nonneg (pow_nonneg h0 3)
    nlinarith [sq_nonneg (2*t - 5/2)]
  · have key : 1 - PerlinNoise.fade t = (1 - t)^3 * (6*t^2 + 3*t + 1) := by
      unfold PerlinNoise.fade; ring
    nlinarith [mul_nonneg (pow_nonneg (sub_nonneg.mpr h1) 3)
      (by nlinarith [sq_nonneg t] : (0:ℚ) ≤ 6*t^2 + 3*t + 1)]

/-- Interpolation with a weight in `[0, 1]` stays within any common bound of
its endpoints. -/
theorem lerp_abs_le {a b t M : ℚ} (ha : |a| ≤ M) (hb : |b| ≤ M)
    (h0 : 0 ≤ t) (h1 : t ≤ 1) : |PerlinNoise.lerp a b t| ≤ M := by
  obtain ⟨ha1, ha2⟩ := abs_le.mp ha
  obtain ⟨hb1, hb2⟩ := abs_le.mp hb
  rw [abs_le]
  unfold PerlinNoise.lerp
  constructor <;>
    nlinarith [mul_nonneg (sub_nonneg.mpr h1) (by linarith : (0:ℚ) ≤ a + M),
      mul_nonneg h0 (by linarith : (0:ℚ) ≤ b + M),
      mul_nonneg (sub_nonneg.mpr h1) (by linarith : (0:ℚ) ≤ M - a),
      mul_nonneg h0 (by linarith : (0:ℚ) ≤ M - b)]

/-- Every hashed gradient value is `±u ± v` for two cell-local coordinates,
hence bounded by 2 when the coordinates lie in `[-1, 1]`. -/
theorem grad_abs_le (hash : ℕ) {x y z : ℚ} (hx : |x| ≤ 1) (hy : |y| ≤ 1)
    (hz : |z| ≤ 1) : |PerlinNoise.grad hash x y z| ≤ 2 := by
  obtain ⟨hx1, hx2⟩ := abs_le.mp hx
  obtain ⟨hy1, hy2⟩ := abs_le.mp hy
  obtain ⟨hz1, hz2⟩ := abs_le.mp hz
  simp only [PerlinNoise.grad]
  rw [abs_le]
  split_ifs <;> constructor <;> linarith

/-- Single-octave noise is bounded by 2 in absolute value, for every lookup
table and every sample point. -/
theorem noise_abs_le (perm : ℕ → ℕ) (x y z : ℚ) :
    |PerlinNoise.noise perm x y z| ≤ 2 := by
  have hfr : ∀ q : ℚ, 0 ≤ q - (⌊q⌋ : ℚ) ∧ q - (⌊q⌋ : ℚ) < 1 := by
    intro q
    constructor
    · exact sub_nonneg.mpr (Int.floor_le q)
    · have := Int.lt_floor_add_one q; linarith
  have hx := hfr x; have hy := hfr y; have hz := hfr z
  have hxa : |x - (⌊x⌋ : ℚ)| ≤ 1 :=
    abs_le.mpr ⟨by linarith [hx.1], by linarith [hx.2]⟩
  have hxb : |x - (⌊x⌋ : ℚ) - 1| ≤ 1 :=
    abs_le.mpr ⟨by linarith [hx.1], by linarith [hx.2]⟩
  have hya : |y - (⌊y⌋ : ℚ)| ≤ 1 :=
    abs_le.mpr ⟨by linarith [hy.1], by linarith [hy.2]⟩
  have hyb : |y - (⌊y⌋ : ℚ) - 1| ≤ 1 :=
    abs_le.mpr ⟨by linarith [hy.1], by linarith [hy.2]⟩
  have hza : |z - (⌊z⌋ : ℚ)| ≤ 1 :=
    abs_le.mpr ⟨by linarith [hz.1], by linarith [hz.2]⟩
  have hzb : |z - (⌊z⌋ : ℚ) - 1| ≤ 1 :=
    abs_le.mpr ⟨by linarith [hz.1], by linarith [hz.2]⟩
  have hu := fade_mem hx.1 hx.2.le
  have hv := fade_mem hy.1 hy.2.le
  have hw := fade_mem hz.1 hz.2.le
  simp only [PerlinNoise.noise]
  refine lerp_abs_le (lerp_abs_le (lerp_abs_le ?_ ?_ hu.1 hu.2)
      (lerp_abs_le ?_ ?_ hu.1 hu.2) hv.1 hv.2)
    (lerp_abs_le (lerp_abs_le ?_ ?_ hu.1 hu.2)
      (lerp_abs_le ?_ ?_ hu.1 hu.2) hv.1 hv.2) hw.1 hw.2 <;>
    apply grad_abs_le <;> assumption

/-- Octave-summation invariant: the accumulated value stays within twice the
accumulated amplitude, and the accumulated amplitude grows by at least the
incoming amplitude once one octave has run. -/
theorem fractalIter_bound (perm : ℕ → ℕ) (x y z pers lac : ℚ)
    (hp : 0 < pers) :
    ∀ (n : ℕ) (v a f m : ℚ), 0 < a → |v| ≤ 2 * m →
      |(PerlinNoise.fractalIter perm x y z pers lac n (v, a, f, m)).1|
        ≤ 2 * (PerlinNoise.fractalIter perm x y z pers lac n (v, a, f, m)).2.2.2 ∧
      m ≤ (PerlinNoise.fractalIter perm x y z pers lac n (v, a, f, m)).2.2.2 ∧
      (1 ≤ n →
        m + a ≤ (PerlinNoise.fractalIter perm x y z pers lac n (v, a, f, m)).2.2.2) := by
  intro n
  induction n with
  | zero =>
    intro v a f m ha hv
    exact ⟨hv, le_refl m, by omega⟩
  | succ n ih =>
    intro v a f m ha hv
    simp only [PerlinNoise.fractalIter]
    have hnoise := noise_abs_le perm (x * f) (y * f) (z * f)
    have hv' : |v + PerlinNoise.noise perm (x * f) (y * f) (z * f) * a|
        ≤ 2 * (m + a) := by
      calc |v + PerlinNoise.noise perm (x * f) (y * f) (z * f) * a|
          ≤ |v| + |PerlinNoise.noise perm (x * f) (y * f) (z * f) * a| :=
            abs_add _ _
        _ ≤ 2 * m + 2 * a := by
            rw [abs_mul, abs_of_pos ha]
            have := mul_le_mul_of_nonneg_right hnoise ha.le
            linarith
        _ = 2 * (m + a) := by ring
    obtain ⟨h1, h2, _⟩ := ih (v + PerlinNoise.noise perm (x * f) (y * f) (z * f) * a)
      (a * pers) (f * lac) (m + a) (mul_pos ha hp) hv'
    refine ⟨h1, by linarith, fun _ => h2⟩

/-- Claim C6 (amended): `fractalNoise` stays within `[-2, 2]` — not `[-1, 1]`
— for every sample point, octave count ≥ 1, persistence in `[0.1, 1]`,
lacunarity in `[1, 4]` and every lookup table.  (Single-octave noise can
slightly exceed 1, so the normalization by total amplitude only guarantees
the gradient bound 2.) -/
theorem fractalNoise_abs_le (perm : ℕ → ℕ) (x y z : ℚ) (octaves : ℕ)
    (pers lac : ℚ) (hoct : 1 ≤ octaves) (hp1 : 1/10 ≤ pers) (hp2 : pers ≤ 1)
    (hl1 : 1 ≤ lac) (hl2 : lac ≤ 4) :
    -2 ≤ PerlinNoise.fractalNoise perm x y z octaves pers lac ∧
    PerlinNoise.fractalNoise perm x y z octaves pers lac ≤ 2 := by
  have hp : (0:ℚ) < pers := by linarith
  obtain ⟨h1, h2, h3⟩ := fractalIter_bound perm x y z pers lac hp octaves
    0 1 1 0 one_pos (by simp)
  have hm : (0:ℚ) <
      (PerlinNoise.fractalIter perm x y z pers lac octaves (0, 1, 1, 0)).2.2.2 := by
    have := h3 hoct
    linarith
  obtain ⟨hv1, hv2⟩ := abs_le.mp h1
  simp only [PerlinNoise.fractalNoise]
  constructor
  · rw [le_div_iff₀ hm]
    linarith
  · rw [div_le_iff₀ hm]
    linarith

/-- Witness for C6 (amended): the bound applied to the explicit permutation
table, the origin, one octave, persistence 1/2 and lacunarity 2. -/
theorem fractalNoise_abs_le_witness :
    -2 ≤ PerlinNoise.fractalNoise permTable 0 0 0 1 (1/2) 2 ∧
    PerlinNoise.fractalNoise permTable 0 0 0 1 (1/2) 2 ≤ 2 :=
  fractalNoise_abs_le permTable 0 0 0 1 (1/2) 2 (by norm_num) (by norm_num)
    (by norm_num) (by norm_num) (by norm_num)

set_option maxRecDepth 4000 in
set_option maxHeartbeats 1000000 in
/-- Counterexample for C6 as stated: `permTable` is a valid permutation table
(any permutation is producible by the Fisher–Yates shuffle of
`generatePermutation`), the octave count 1, persistence 1/2 and lacunarity 2
are in the documented ranges, yet `fractalNoise` at `(1/2, 1/2, 1/10)`
evaluates to `31357/31250 > 1`: the output does NOT stay within `[-1, 1]`. -/
theorem fractalNoise_exceeds_one :
    IsPermTable permTable ∧
    1 ≤ (1 : ℕ) ∧ (1/10 : ℚ) ≤ 1/2 ∧ (1/2 : ℚ) ≤ 1 ∧
    (1 : ℚ) ≤ 2 ∧ (2 : ℚ) ≤ 4 ∧
    1 < PerlinNoise.fractalNoise permTable (1/2) (1/2) (1/10) 1 (1/2) 2 := by
  refine ⟨⟨by decide, by decide, by decide⟩, by norm_num, by norm_num,
    by norm_num, by norm_num, by norm_num, ?_⟩
  norm_num [PerlinNoise.fractalNoise, PerlinNoise.fractalIter,
    PerlinNoise.noise, PerlinNoise.fade, PerlinNoise.lerp, PerlinNoise.grad,
    permTable, permBase]

/-- With `c = (0, 0)` and `z0 = 0` the mandelbrot orbit is the fixed point 0:
the loop never escapes and just counts iterations. -/
theorem Fractal.mandelbrot_zero_orbit (fuel iter : ℕ) :
    Fractal.escapeLoop (Fractal.mandelStep 0 0) fuel
      { x := 0, y := 0, x2 := 0, y2 := 0, iter := iter }
      = { x := 0, y := 0, x2 := 0, y2 := 0, iter := iter + fuel } := by
  induction fuel generalizing iter with
  | zero => rfl
  | succ n ih =>
    have hstep : Fractal.mandelStep 0 0
        { x := 0, y := 0, x2 := 0, y2 := 0, iter := iter }
        = { x := 0, y := 0, x2 := 0, y2 := 0, iter := iter + 1 } := by
      simp [Fractal.mandelStep]
    rw [Fractal.escapeLoop, if_pos (by norm_num), hstep, ih]
    congr 1
    omega

/-- Claim C7: `mandelbrot(0, 0, maxIterations)` returns 0 (the "inside set"
marker) for every `maxIterations`: the orbit of `z ← z² + c` from `z0 = 0`
with `c = (0, 0)` never satisfies the escape condition `|z|² > 4`. -/
theorem mandelbrot_origin_inside (maxIter : ℕ) :
    Fractal.mandelbrot 0 0 maxIter = 0 := by
  have h := Fractal.mandelbrot_zero_orbit maxIter 0
  simp only [Fractal.mandelbrot, Fractal.mandelbrotExit] at *
  rw [h]
  simp

/-- Claim C8 (amended): for each fractal family, if the point escapes
strictly within the smaller budget `m1`, the returned smoothed escape count
at budget `m2 ≥ m1` is at least (in fact equal to) the one at `m1`: the
loop exits at the same state either way. -/
theorem fractal_escape_monotone (cx cy jr ji : ℚ) (m1 m2 : ℕ)
    (h12 : m1 ≤ m2) :
    (Fractal.mandelEscapesWithin cx cy m1 →
      Fractal.mandelbrot cx cy m1 ≤ Fractal.mandelbrot cx cy m2) ∧
    (Fractal.juliaEscapesWithin cx cy m1 jr ji →
      Fractal.julia cx cy m1 jr ji ≤ Fractal.julia cx cy m2 jr ji) ∧
    (Fractal.shipEscapesWithin cx cy m1 →
      Fractal.burning_ship cx cy m1 ≤ Fractal.burning_ship cx cy m2) := by
  refine ⟨?_, ?_, ?_⟩
  · intro hesc
    have hstable : Fractal.mandelbrotExit cx cy m2
        = Fractal.mandelbrotExit cx cy m1 :=
      Fractal.exit_stable (Fractal.mandelStep cx cy) (fun _ => rfl) _ rfl
        m1 m2 h12 hesc
    have h1 : (Fractal.mandelbrotExit cx cy m1).iter ≠ m1 := Nat.ne_of_lt hesc
    have h2 : (Fractal.mandelbrotExit cx cy m1).iter ≠ m2 :=
      Nat.ne_of_lt (lt_of_lt_of_le hesc h12)
    simp only [Fractal.mandelbrot, hstable]
    rw [if_neg h1, if_neg h2]
  · intro hesc
    have hstable : Fractal.juliaExit cx cy m2 jr ji
        = Fractal.juliaExit cx cy m1 jr ji :=
      Fractal.exit_stable (Fractal.juliaStep jr ji) (fun _ => rfl) _ rfl
        m1 m2 h12 hesc
    have h1 : (Fractal.juliaExit cx cy m1 jr ji).iter ≠ m1 := Nat.ne_of_lt hesc
    have h2 : (Fractal.juliaExit cx cy m1 jr ji).iter ≠ m2 :=
      Nat.ne_of_lt (lt_of_lt_of_le hesc h12)
    simp only [Fractal.julia, hstable]
    rw [if_neg h1, if_neg h2]
  · intro hesc
    have hstable : Fractal.shipExit cx cy m2 = Fractal.shipExit cx cy m1 :=
      Fractal.exit_stable (Fractal.shipStep cx cy) (fun _ => rfl) _ rfl
        m1 m2 h12 hesc
    have h1 : (Fractal.shipExit cx cy m1).iter ≠ m1 := Nat.ne_of_lt hesc
    have h2 : (Fractal.shipExit cx cy m1).iter ≠ m2 :=
      Nat.ne_of_lt (lt_of_lt_of_le hesc h12)
    simp only [Fractal.burning_ship, hstable]
    rw [if_neg h1, if_neg h2]

/-- Witness for C8 (amended): the point `(3, 0)` escapes within 2 iterations
in all three families, and raising the budget from 2 to 5 does not decrease
any of the three results. -/
theorem fractal_escape_monotone_witness :
    Fractal.mandelEscapesWithin 3 0 2 ∧
    Fractal.juliaEscapesWithin 3 0 2 (-7/10) (27015/100000) ∧
    Fractal.shipEscapesWithin 3 0 2 ∧
    Fractal.mandelbrot 3 0 2 ≤ Fractal.mandelbrot 3 0 5 ∧
    Fractal.julia 3 0 2 (-7/10) (27015/100000)
      ≤ Fractal.julia 3 0 5 (-7/10) (27015/100000) ∧
    Fractal.burning_ship 3 0 2 ≤ Fractal.burning_ship 3 0 5 := by
  have hm : Fractal.mandelEscapesWithin 3 0 2 := by
    norm_num [Fractal.mandelEscapesWithin, Fractal.mandelbrotExit,
      Fractal.escapeLoop, Fractal.mandelStep]
  have hj : Fractal.juliaEscapesWithin 3 0 2 (-7/10) (27015/100000) := by
    norm_num [Fractal.juliaEscapesWithin, Fractal.juliaExit,
      Fractal.escapeLoop, Fractal.juliaStep]
  have hs : Fractal.shipEscapesWithin 3 0 2 := by
    norm_num [Fractal.shipEscapesWithin, Fractal.shipExit,
      Fractal.escapeLoop, Fractal.shipStep]
  exact ⟨hm, hj, hs,
    (fractal_escape_monotone 3 0 (-7/10) (27015/100000) 2 5 (by norm_num)).1 hm,
    (fractal_escape_monotone 3 0 (-7/10) (27015/100000) 2 5 (by norm_num)).2.1 hj,
    (fractal_escape_monotone 3 0 (-7/10) (27015/100000) 2 5 (by norm_num)).2.2 hs⟩

/-- Counterexample for C8 as stated: the point `(20, 0)` escapes (within 2
iterations), `0 ≤ 2`, yet `mandelbrot(20, 0, 0) = 0` while
`mandelbrot(20, 0, 2) = 2 - log2(log2(400)) + log2(2) < 0`: raising
`maxIterations` from 0 to 2 DECREASES the returned value, because the
smoothed escape count of a far-escaping orbit is negative while an exhausted
budget returns the inside-set marker 0. -/
theorem mandelbrot_refinement_decreases :
    Fractal.mandelEscapesWithin 20 0 2 ∧
    ¬ (Fractal.mandelbrot 20 0 0 ≤ Fractal.mandelbrot 20 0 2) := by
  have hexit : Fractal.mandelbrotExit 20 0 2
      = { x := 20, y := 0, x2 := 400, y2 := 0, iter := 1 } := by
    norm_num [Fractal.mandelbrotExit, Fractal.escapeLoop, Fractal.mandelStep]
  have h0 : Fractal.mandelbrot 20 0 0 = 0 := by
    simp [Fractal.mandelbrot, Fractal.mandelbrotExit, Fractal.escapeLoop]
  have h2 : Fractal.mandelbrot 20 0 2 = Fractal.smoothCount 1 400 := by
    simp only [Fractal.mandelbrot, hexit]
    norm_num
  have hl2 : (0:ℝ) < Real.log 2 := Real.log_pos (by norm_num)
  have h256 : Real.log 256 < Real.log 400 :=
    Real.log_lt_log (by norm_num) (by norm_num)
  have h256e : Real.log 256 = 8 * Real.log 2 := by
    rw [show (256:ℝ) = 2 ^ (8:ℕ) by norm_num, Real.log_pow]
    norm_num
  have hq4 : (4:ℝ) < Real.log 400 / 2 / Real.log 2 := by
    rw [lt_div_iff₀ hl2]
    linarith
  have hlq : Real.log 4 < Real.log (Real.log 400 / 2 / Real.log 2) :=
    Real.log_lt_log (by norm_num) hq4
  have h4e : Real.log 4 = 2 * Real.log 2 := by
    rw [show (4:ℝ) = 2 ^ (2:ℕ) by norm_num, Real.log_pow]
    norm_num
  have hnu : (2:ℝ) < Real.log (Real.log 400 / 2 / Real.log 2) / Real.log 2 := by
    rw [lt_div_iff₀ hl2]
    linarith
  have hneg : Fractal.smoothCount 1 400 < 0 := by
    simp only [Fractal.smoothCount]
    push_cast
    linarith
  constructor
  · rw [Fractal.mandelEscapesWithin, hexit]
    norm_num
  · rw [h0, h2]
    exact not_le.mpr hneg

/-- Claim C10: `PerlinNoise.render()` adds `parameters.timeSpeed * 0.01` to
`noiseOffset` on every call, with no test of `isPlaying`; consequently (for
the nonzero `timeSpeed` the schema guarantees, its range being
`[0.1, 5.0]`) render mutates instance state, and two consecutive renders on
a paused, otherwise-unchanged instance sample the noise field at different
time offsets. -/
theorem perlin_render_mutates (s : PNState) (hpause : s.isPlaying = false)
    (hts : s.params.timeSpeed ≠ 0) :
    (∀ s' : PNState, (PerlinNoise.renderState s').noiseOffset
      = s'.noiseOffset + s'.params.timeSpeed * (1/100)) ∧
    PerlinNoise.renderState s ≠ s ∧
    (PerlinNoise.renderState s).noiseOffset
      ≠ (PerlinNoise.renderState (PerlinNoise.renderState s)).noiseOffset := by
  refine ⟨fun s' => rfl, ?_, ?_⟩
  · intro heq
    have hoff : (PerlinNoise.renderState s).noiseOffset = s.noiseOffset := by
      rw [heq]
    simp only [PerlinNoise.renderState] at hoff
    exact hts (by linarith)
  · intro heq
    simp only [PerlinNoise.renderState] at heq
    exact hts (by linarith)

/-- Witness for C10: rendering the concrete paused instance changes it, and
the offsets sampled by two consecutive renders differ. -/
theorem perlin_render_mutates_witness :
    PerlinNoise.renderState pnPaused ≠ pnPaused ∧
    (PerlinNoise.renderState pnPaused).noiseOffset
      ≠ (PerlinNoise.renderState (PerlinNoise.renderState pnPaused)).noiseOffset :=
  ⟨(perlin_render_mutates pnPaused rfl (by norm_num [pnPaused])).2.1,
   (perlin_render_mutates pnPaused rfl (by norm_num [pnPaused])).2.2⟩

/-- Claim C1: for every animation variant, `update(deltaTime)` is a no-op
unless the instance is playing (every piece of instance state is unchanged);
while playing it adds `deltaTime * parameters.speed` to the elapsed time and
increments the frame counter by exactly 1. -/
theorem update_noop_unless_playing (dt : ℚ) (s1 : RPState) (s2 : WIState)
    (s3 : PSState) (s4 : PNState) (s5 : FractalState) (s6 : SpiroState) :
    (s1.isPlaying = false → RotatingPolygons.update dt s1 = s1) ∧
    (s1.isPlaying = true →
      (RotatingPolygons.update dt s1).time = s1.time + dt * s1.params.speed ∧
      (RotatingPolygons.update dt s1).frame = s1.frame + 1) ∧
    (s2.isPlaying = false → WaveInterference.update dt s2 = s2) ∧
    (s2.isPlaying = true →
      (WaveInterference.update dt s2).time = s2.time + dt * s2.params.speed ∧
      (WaveInterference.update dt s2).frame = s2.frame + 1) ∧
    (s3.isPlaying = false → ParticleSystem.update dt s3 = s3) ∧
    (s3.isPlaying = true →
      (ParticleSystem.update dt s3).time = s3.time + dt * s3.params.speed ∧
      (ParticleSystem.update dt s3).frame = s3.frame + 1) ∧
    (s4.isPlaying = false → PerlinNoise.update dt s4 = s4) ∧
    (s4.isPlaying = true →
      (PerlinNoise.update dt s4).time = s4.time + dt * s4.params.speed ∧
      (PerlinNoise.update dt s4).frame = s4.frame + 1) ∧
    (s5.isPlaying = false → Fractal.update dt s5 = s5) ∧
    (s5.isPlaying = true →
      (Fractal.update dt s5).time = s5.time + dt * s5.params.speed ∧
      (Fractal.update dt s5).frame = s5.frame + 1) ∧
    (s6.isPlaying = false → Spirograph.update dt s6 = s6) ∧
    (s6.isPlaying = true →
      (Spirograph.update dt s6).time = s6.time + dt * s6.params.speed ∧
      (Spirograph.update dt s6).frame = s6.frame + 1) := by
  refine ⟨?_, ?_, ?_, ?_, ?_, ?_, ?_, ?_, ?_, ?_, ?_, ?_⟩ <;> intro h <;>
    simp [RotatingPolygons.update, WaveInterference.update, ParticleSystem.update,
      PerlinNoise.update, Fractal.update, Spirograph.update, h]

/-- Witness for C1 at concrete inputs: paused updates are no-ops and playing
updates advance time and frame, for concrete instances of every variant. -/
theorem update_noop_unless_playing_witness :
    RotatingPolygons.update 16 rpPaused = rpPaused ∧
    (RotatingPolygons.update 16 rpPlaying).time
      = rpPlaying.time + 16 * rpPlaying.params.speed ∧
    ParticleSystem.update 16 psPaused = psPaused ∧
    (ParticleSystem.update 16 psPlaying).frame = psPlaying.frame + 1 ∧
    Spirograph.update 16 spiroPaused = spiroPaused := by
  refine ⟨?_, ?_, ?_, ?_, ?_⟩
  · exact (update_noop_unless_playing 16 rpPaused wiPaused psPaused pnPaused
      fracPaused spiroPaused).1 rfl
  · exact ((update_noop_unless_playing 16 rpPlaying wiPaused psPaused pnPaused
      fracPaused spiroPaused).2.1 rfl).1
  · exact ((update_noop_unless_playing 16 rpPaused wiPaused psPaused pnPaused
      fracPaused spiroPaused).2.2.2.2.1) rfl
  · exact (((update_noop_unless_playing 16 rpPaused wiPaused psPlaying pnPaused
      fracPaused spiroPaused).2.2.2.2.2.1) rfl).2
  · exact ((update_noop_unless_playing 16 rpPaused wiPaused psPaused pnPaused
      fracPaused spiroPaused).2.2.2.2.2.2.2.2.2.2.1) rfl

/-- Claim C2 (amended): for every variant, `reset()` zeroes `frameCount` and
`elapsedTime`; `RotatingPolygons.reset` additionally zeroes the rotation
phase and last-sampled-time cursor, and `Fractal.reset` restores `zoom = 1`
and `colorOffset = 0` — but trail buffers are NOT cleared: `ParticleSystem`
particles (with their trails) and `Spirograph.trailPoints` are left
unchanged, as neither variant overrides `reset`. -/
theorem reset_contract (s1 : RPState) (s2 : WIState) (s3 : PSState)
    (s4 : PNState) (s5 : FractalState) (s6 : SpiroState) :
    ((RotatingPolygons.reset s1).frame = 0 ∧ (RotatingPolygons.reset s1).time = 0 ∧
      (RotatingPolygons.reset s1).rotationPhase = 0 ∧
      (RotatingPolygons.reset s1).lastTime = 0) ∧
    ((WaveInterference.reset s2).frame = 0 ∧ (WaveInterference.reset s2).time = 0) ∧
    ((ParticleSystem.reset s3).frame = 0 ∧ (ParticleSystem.reset s3).time = 0 ∧
      (ParticleSystem.reset s3).particles = s3.particles) ∧
    ((PerlinNoise.reset s4).frame = 0 ∧ (PerlinNoise.reset s4).time = 0) ∧
    ((Fractal.reset s5).frame = 0 ∧ (Fractal.reset s5).time = 0 ∧
      (Fractal.reset s5).zoom = 1 ∧ (Fractal.reset s5).colorOffset = 0) ∧
    ((Spirograph.reset s6).frame = 0 ∧ (Spirograph.reset s6).time = 0 ∧
      (Spirograph.reset s6).trailPoints = s6.trailPoints) := by
  refine ⟨⟨rfl, rfl, rfl, rfl⟩, ⟨rfl, rfl⟩, ⟨rfl, rfl, rfl⟩, ⟨rfl, rfl⟩,
    ⟨rfl, rfl, rfl, rfl⟩, ⟨rfl, rfl, rfl⟩⟩

/-- Counterexample for C2 as stated: at an explicit `Spirograph` state with a
nonempty trail buffer and an explicit `ParticleSystem` state with a nonempty
per-particle trail, `reset()` does NOT empty the trail buffers. -/
theorem reset_does_not_clear_trails :
    (Spirograph.reset spiroPaused).trailPoints ≠ [] ∧
    (ParticleSystem.reset psPaused).particles.map Particle.trail ≠ [[]] := by
  constructor
  · simp [Spirograph.reset, spiroPaused]
  · simp [ParticleSystem.reset, psPaused]

/-- Claim C3: `createAnimation` throws an "unknown animation type" error
exactly when the key is not one of the six registered keys (no instance is
constructed on failure — the error carries no instance), and for each of
the six keys it returns an instance of the corresponding variant. -/
theorem createAnimation_registry (type : String) (w h : ℚ) (rand : ℕ → ℚ) :
    (type ∉ animationKeys →
      createAnimation type w h rand
        = .error ("Unknown animation type: " ++ type)) ∧
    (∀ k ∈ animationKeys, createAnimation k w h rand
        ≠ .error ("Unknown animation type: " ++ k)) ∧
    createAnimation "rotating_polygons" w h rand
      = .ok (.rotatingPolygons (mkRotatingPolygons w h)) ∧
    createAnimation "wave_interference" w h rand
      = .ok (.waveInterference (mkWaveInterference w h)) ∧
    createAnimation "particle_system" w h rand
      = .ok (.particleSystem (mkParticleSystem w h rand)) ∧
    createAnimation "perlin_noise" w h rand
      = .ok (.perlinNoise (mkPerlinNoise w h rand)) ∧
    createAnimation "fractal" w h rand
      = .ok (.fractal (mkFractal w h)) ∧
    createAnimation "spirograph" w h rand
      = .ok (.spirograph (mkSpirograph w h)) := by
  refine ⟨?_, ?_, rfl, rfl, rfl, rfl, rfl, rfl⟩
  · intro hmem
    simp only [animationKeys, List.mem_cons, List.not_mem_nil, or_false,
      not_or] at hmem
    obtain ⟨h1, h2, h3, h4, h5, h6⟩ := hmem
    simp [createAnimation, h1, h2, h3, h4, h5, h6]
  · intro k hk
    fin_cases hk <;> simp [createAnimation]

/-- Witness for C3: the key `"plasma"` is rejected with the exact error
message, and the key `"fractal"` produces a `Fractal` instance. -/
theorem createAnimation_registry_witness :
    createAnimation "plasma" 800 600 (fun _ => 1/2)
      = .error "Unknown animation type: plasma" ∧
    createAnimation "fractal" 800 600 (fun _ => 1/2)
      = .ok (.fractal (mkFractal 800 600)) := by
  constructor
  · exact (createAnimation_registry "plasma" 800 600 (fun _ => 1/2)).1
      (by decide)
  · exact (createAnimation_registry "fractal" 800 600
      (fun _ => 1/2)).2.2.2.2.2.2.1

/-- Claim C9: `hsvToRgb(h, 1, 1)` returns exactly pure red at `h = 0`,
yellow at `1/6`, green at `2/6`, cyan at `3/6`, blue at `4/6` and magenta at
`5/6`, including at the exact sector boundaries where the branch taken
switches. -/
theorem hsvToRgb_primary_colors :
    Animation.hsvToRgb 0 1 1 = (255, 0, 0) ∧
    Animation.hsvToRgb (1/6) 1 1 = (255, 255, 0) ∧
    Animation.hsvToRgb (2/6) 1 1 = (0, 255, 0) ∧
    Animation.hsvToRgb (3/6) 1 1 = (0, 255, 255) ∧
    Animation.hsvToRgb (4/6) 1 1 = (0, 0, 255) ∧
    Animation.hsvToRgb (5/6) 1 1 = (255, 0, 255) := by
  refine ⟨?_, ?_, ?_, ?_, ?_, ?_⟩ <;>
    norm_num [Animation.hsvToRgb, jsRem, jsTrunc, jsRound, Prod.ext_iff]
